import Mathlib

/-!
Verification of the crawl-and-reconcile pipeline of the temi_recommender
repository (src/data/crawler/collect.py and src/data/crawler/preprocess.py).

The Python functions relevant to the frozen claims are shallowly embedded as
executable Lean definitions:

* identity-key computation of the dedup loop in main (collect.py lines
  860-871) and of crawl_one_mid (lines 352-355);
* price-string cleanup of parse_products_from_fragment (lines 309-333) and
  parse_price of preprocess.py (lines 88-100);
* find_missing_t_numbers (lines 398-440);
* merge_json_files (lines 653-743), with the Python dict modelled as an
  association list where the most recent insertion shadows older ones;
* the per-item admission / enrichment / rollback step of main (lines
  860-932), the end-of-page retry pass (lines 934-1023), and the page loop
  with its three stop conditions (lines 829-1034);
* the per-item step of crawl_missing_products_by_t_number (lines 563-612).

Browser interaction is abstracted by oracles: a fetch oracle mapping a page
index to the list of parsed summaries, and enrichment oracles mapping an item
to the outcome of extract_product_details, which either returns the five
detail fields or raises.  Python sets are modelled as Finset String, Python
lists as List, and string truthiness as inequality with the empty string.
-/

namespace TemiCrawler

/-- Outcome of the five purchase-information fields extracted by
extract_product_details (collect.py lines 197-265). -/
structure Details where
  volume : String
  spec : String
  usage : String
  ingredients : String
  caution : String
deriving DecidableEq, Repr

/-- Python any(details.values()): true iff at least one of the five fields is
a non-empty string. -/
def Details.hasAny (d : Details) : Bool :=
  d.volume != "" || d.spec != "" || d.usage != "" || d.ingredients != "" || d.caution != ""

/-- The all-empty Details value initialised at the top of
extract_product_details; also what a product carries when the detail keys were
never attached to its dict. -/
def emptyDetails : Details := ⟨"", "", "", "", ""⟩

/-- Result of one call to extract_product_details as seen by its caller:
either the returned Details (possibly all empty) or an exception. -/
inductive EnrichOutcome where
  | ok (d : Details)
  | raised
deriving DecidableEq, Repr

/-- A parsed product summary as produced by parse_products_from_fragment
(collect.py lines 309-333). -/
structure RawItem where
  goodsNo : String
  dispCatNo : String
  image : String
  brand : String
  name : String
  detailUrl : String
  t_number : String
  price_org : String
  price_cur : String
deriving DecidableEq, Repr

/-- A product record as appended to all_products: the summary fields plus the
provenance keys first_category / mid_category / page_idx and the five detail
fields (empty when the detail keys were never attached, matching Python
dict.get with an empty-string default). -/
structure Product where
  goodsNo : String
  dispCatNo : String
  image : String
  brand : String
  name : String
  detailUrl : String
  t_number : String
  price_org : String
  price_cur : String
  first_category : String
  mid_category : String
  page_idx : Nat
  volume : String := ""
  spec : String := ""
  usage : String := ""
  ingredients : String := ""
  caution : String := ""
deriving DecidableEq, Repr

/-- Attach provenance and detail fields to a summary, as the crawl loops do
by mutating the item dict in place. -/
def mkProduct (it : RawItem) (primary mid : String) (pageIdx : Nat) (d : Details) : Product :=
  { goodsNo := it.goodsNo, dispCatNo := it.dispCatNo, image := it.image,
    brand := it.brand, name := it.name, detailUrl := it.detailUrl,
    t_number := it.t_number, price_org := it.price_org, price_cur := it.price_cur,
    first_category := primary, mid_category := mid, page_idx := pageIdx,
    volume := d.volume, spec := d.spec, usage := d.usage,
    ingredients := d.ingredients, caution := d.caution }

/-- Python any of the five detail fields of a stored product. -/
def Product.detailsEmpty (p : Product) : Bool :=
  p.volume == "" && p.spec == "" && p.usage == "" && p.ingredients == "" && p.caution == ""

/-- Python re.sub of every non-digit character with the empty string
(collect.py lines 312-313, preprocess.py line 95). -/
def stripNonDigits (s : String) : String :=
  String.mk (s.toList.filter Char.isDigit)

/-- Value of a decimal digit list, most significant first. -/
def digitsVal (l : List Char) : Nat :=
  l.foldl (fun n c => n * 10 + (c.toNat - 48)) 0

/-- Python int() on the digit strings produced by the crawler (every t_number
in the pipeline is extracted by a digits-only regular expression). -/
def strToNat (s : String) : Nat :=
  digitsVal s.toList

/-- Price cleanup of parse_products_from_fragment (collect.py lines 311-317):
strip non-digits from both raw price strings, then, when the original price is
absent but the current price present, set the original price to the current
price. Returns the pair (price_org, price_cur). -/
def normalizePrices (price_org_raw price_cur_raw : String) : String × String :=
  let price_org := stripNonDigits price_org_raw
  let price_cur := stripNonDigits price_cur_raw
  if price_org = "" ∧ price_cur ≠ "" then (price_cur, price_cur) else (price_org, price_cur)

/-- parse_price of preprocess.py lines 88-100: strip non-digits and convert
the remainder to an integer, none when nothing remains. -/
def parse_price (value : String) : Option Nat :=
  let s := stripNonDigits value
  if s = "" then none else some (digitsVal s.toList)

/-- Identity key of the dedup loop in main (collect.py lines 860-871):
non-empty t_number gives a t_ key, else non-empty goodsNo gives a g_ key,
else the fallback composite of category handle, page index and position. -/
def resolveMain (it : RawItem) (dispCatNo : String) (pageIdx idx : Nat) : String :=
  if it.t_number ≠ "" then "t_" ++ it.t_number
  else if it.goodsNo ≠ "" then "g_" ++ it.goodsNo
  else "fb_" ++ dispCatNo ++ ":" ++ toString pageIdx ++ ":" ++ toString idx

/-- Identity key of crawl_one_mid (collect.py lines 352-355): the Python
expression gid = "t_..." if t_num else (goodsNo or fallback), where the
fallback interpolates the detail URL instead of the position and the goodsNo
branch carries no prefix. -/
def resolveCrawlOneMid (it : RawItem) (dispCatNo : String) (pageIdx : Nat) : String :=
  if it.t_number ≠ "" then "t_" ++ it.t_number
  else if it.goodsNo ≠ "" then it.goodsNo
  else dispCatNo ++ ":" ++ toString pageIdx ++ ":" ++ it.detailUrl

/-- Core of find_missing_t_numbers (collect.py lines 398-440): the numbers in
1..expected_max that are not the integer value of any non-empty t_number in
the dataset. The Python code forms sorted(set(range(1, max+1)) - collected);
filtering the ascending range keeps exactly those elements in the same
ascending order. -/
def find_missing_t_numbers (products : List Product) (expected_max : Nat) : List Nat :=
  (List.range' 1 expected_max).filter
    (fun n => !products.any (fun p => p.t_number != "" && strToNat p.t_number == n))

end TemiCrawler

namespace TemiCrawler

/-- Concrete summary used in counterexamples: empty t_number, non-empty
goodsNo. -/
def itemG : RawItem :=
  { goodsNo := "123", dispCatNo := "d", image := "", brand := "", name := "",
    detailUrl := "u", t_number := "", price_org := "", price_cur := "" }

/-- Dataset for the gap-detection witness: products whose t_numbers are 1, 2,
4, 5. -/
def gapProduct (t : String) : Product :=
  { goodsNo := "", dispCatNo := "", image := "", brand := "", name := "",
    detailUrl := "", t_number := t, price_org := "", price_cur := "",
    first_category := "f", mid_category := "m", page_idx := 1 }

def gapDataset : List Product :=
  [gapProduct "1", gapProduct "2", gapProduct "4", gapProduct "5"]

/-- Mutable state of the primary crawl in main: the accumulated output list,
the category-scoped seen set (reset per mid category, collect.py line 830)
and the run-scoped global seen set (line 751). -/
structure CrawlState where
  all_products : List Product
  seen_goods : Finset String
  global_seen : Finset String
deriving DecidableEq

/-- State at the top of main (collect.py lines 750-751). -/
def initState : CrawlState := ⟨[], ∅, ∅⟩

/-- Inline admission step of main for one enumerated item (collect.py lines
860-932): compute the identity key; skip when it is in either seen scope;
otherwise provisionally insert it in both scopes, then, when detail fetching
applies, either attach the extracted details (at least one non-empty field),
or roll the key back out of both scopes on all-empty details or on an
exception. Returns the new state and whether the product was appended. -/
def processInline (fd : Bool) (primary mid disp : String) (pageIdx : Nat)
    (e1 : RawItem → EnrichOutcome) (st : CrawlState) (idx : Nat) (it : RawItem) :
    CrawlState × Bool :=
  let gid := resolveMain it disp pageIdx idx
  if gid ∈ st.global_seen ∨ gid ∈ st.seen_goods then (st, false)
  else
    let st1 : CrawlState :=
      { st with seen_goods := insert gid st.seen_goods,
                global_seen := insert gid st.global_seen }
    if fd ∧ it.detailUrl ≠ "" then
      match e1 it with
      | EnrichOutcome.ok d =>
        if d.hasAny then
          ({ st1 with all_products := st1.all_products ++ [mkProduct it primary mid pageIdx d] },
           true)
        else
          ({ st1 with seen_goods := st1.seen_goods.erase gid,
                      global_seen := st1.global_seen.erase gid }, false)
      | EnrichOutcome.raised =>
          ({ st1 with seen_goods := st1.seen_goods.erase gid,
                      global_seen := st1.global_seen.erase gid }, false)
    else
      ({ st1 with all_products := st1.all_products ++ [mkProduct it primary mid pageIdx emptyDetails] },
       true)

/-- First pass over the enumerated items of one listing page, accumulating
the state, the running new_count and the 1-based actually_added_indices list
(collect.py lines 857-932). -/
def runInline (fd : Bool) (primary mid disp : String) (pageIdx : Nat)
    (e1 : RawItem → EnrichOutcome) (st : CrawlState) (items : List RawItem) :
    CrawlState × Nat × List Nat :=
  items.enum.foldl
    (fun acc ix =>
      let r := processInline fd primary mid disp pageIdx e1 acc.1 ix.1 ix.2
      if r.2 then (r.1, acc.2.1 + 1, acc.2.2 ++ [ix.1 + 1]) else (r.1, acc.2.1, acc.2.2))
    (st, 0, [])

/-- End-of-page retry step for one missing 1-based index (collect.py lines
946-1020): skip when a product with the same non-empty t_number or goodsNo is
already accumulated; else, when the item has a detail URL, re-run enrichment
when detail fetching is on and append the item regardless of how empty the
extracted details are, inserting its key in both scopes; an enrichment
exception adds nothing. Items without a detail URL are dropped. -/
def processRetryOne (fd : Bool) (primary mid disp : String) (pageIdx : Nat)
    (e2 : RawItem → EnrichOutcome) (acc : CrawlState × Nat) (missingIdx : Nat)
    (it : RawItem) : CrawlState × Nat :=
  let st := acc.1
  let gid := resolveMain it disp pageIdx missingIdx
  let already_added := st.all_products.any (fun p =>
    (p.t_number != "" && p.t_number == it.t_number) ||
    (p.goodsNo != "" && p.goodsNo == it.goodsNo))
  if already_added then acc
  else if it.detailUrl ≠ "" then
    if fd then
      match e2 it with
      | EnrichOutcome.raised => acc
      | EnrichOutcome.ok d =>
        ({ st with seen_goods := insert gid st.seen_goods,
                   global_seen := insert gid st.global_seen,
                   all_products := st.all_products ++ [mkProduct it primary mid pageIdx d] },
         acc.2 + 1)
    else
      ({ st with seen_goods := insert gid st.seen_goods,
                 global_seen := insert gid st.global_seen,
                 all_products := st.all_products ++ [mkProduct it primary mid pageIdx emptyDetails] },
       acc.2 + 1)
  else acc

/-- Processing of one fetched listing page in main: the inline pass over all
items followed by the retry pass over the sorted missing indices (collect.py
lines 855-1023). Returns the state and the total new_count of the page. -/
def processPage (fd : Bool) (primary mid disp : String) (pageIdx : Nat)
    (e1 e2 : RawItem → EnrichOutcome) (st : CrawlState) (items : List RawItem) :
    CrawlState × Nat :=
  let r1 := runInline fd primary mid disp pageIdx e1 st items
  let missingIdxs := (List.range' 1 items.length).filter (fun i => !r1.2.2.contains i)
  let r2 := missingIdxs.foldl
    (fun acc mIdx =>
      match items.get? (mIdx - 1) with
      | some it => processRetryOne fd primary mid disp pageIdx e2 acc mIdx it
      | none => acc)
    (r1.1, 0)
  (r2.1, r1.2.1 + r2.2)

/-- Observable record of one fetched listing page, mirroring the per-page
log output of main: the page index, the number of product elements on the
page, and the page's new_count. -/
structure PageLog where
  idx : Nat
  numItems : Nat
  newCount : Nat
deriving DecidableEq, Repr

/-- Result of the page loop: final state plus one log entry per fetched
page. -/
structure LoopOut where
  state : CrawlState
  log : List PageLog
deriving DecidableEq

/-- Body of the page loop of main for one category (collect.py lines
832-1034): fetch the page; stop when it has zero product elements; otherwise
process it and stop when the page contributed zero new products, or after
incrementing the page index past the hard ceiling of 100. The fuel argument
is only a structural termination bound: the wrapper passes 101 minus the
starting index, which the ceiling check keeps from ever being exhausted. -/
def pageLoopGo (fd : Bool) (primary mid disp : String) (e1 e2 : RawItem → EnrichOutcome)
    (fetch : Nat → List RawItem) : Nat → CrawlState → Nat → LoopOut
  | 0, st, _ => ⟨st, []⟩
  | fuel + 1, st, pageIdx =>
    let items := fetch pageIdx
    if items.length = 0 then ⟨st, [⟨pageIdx, 0, 0⟩]⟩
    else
      let r := processPage fd primary mid disp pageIdx e1 e2 st items
      if r.2 = 0 then ⟨r.1, [⟨pageIdx, items.length, 0⟩]⟩
      else if 100 < pageIdx + 1 then ⟨r.1, [⟨pageIdx, items.length, r.2⟩]⟩
      else
        let rest := pageLoopGo fd primary mid disp e1 e2 fetch fuel r.1 (pageIdx + 1)
        ⟨rest.state, ⟨pageIdx, items.length, r.2⟩ :: rest.log⟩

/-- Page loop of main starting at the given page index. -/
def pageLoop (fd : Bool) (primary mid disp : String) (e1 e2 : RawItem → EnrichOutcome)
    (fetch : Nat → List RawItem) (st : CrawlState) (pageIdx : Nat) : LoopOut :=
  pageLoopGo fd primary mid disp e1 e2 fetch (101 - pageIdx) st pageIdx

/-- Category-level wrapper in main (collect.py lines 829-830): each mid
category starts its pagination at page 1 with a fresh category-scoped seen
set, while the global set persists. -/
def crawlCategory (fd : Bool) (primary mid disp : String)
    (e1 e2 : RawItem → EnrichOutcome) (fetch : Nat → List RawItem)
    (st : CrawlState) : LoopOut :=
  pageLoop fd primary mid disp e1 e2 fetch { st with seen_goods := ∅ } 1

/-- Mutable state of crawl_missing_products_by_t_number: the shrinking
missing_t_numbers list, the recovered_products list, the failed_t_numbers
list and the per-category found_in_this_category list (collect.py lines
470-471, 546, 610-612). -/
structure RecState where
  missing : List Nat
  recovered : List Product
  failed : List Nat
  found : List Nat
deriving DecidableEq

/-- Per-item step of the recovery walk (collect.py lines 566-612): an item
whose t_number is a member of missing gets its provenance set; when detail
fetching applies, enrichment either attaches the returned details (however
empty) or, on an exception, appends the id to failed without attaching
anything; in every one of these cases the lines after the try block still
run: the item is appended to recovered, the id is appended to found and the
id is removed from missing. Items whose t_number is empty or not missing are
skipped. -/
def recoveryStep (fd : Bool) (primary mid : String) (pageIdx : Nat)
    (e : RawItem → EnrichOutcome) (st : RecState) (it : RawItem) : RecState :=
  if it.t_number ≠ "" then
    let t := strToNat it.t_number
    if t ∈ st.missing then
      if fd ∧ it.detailUrl ≠ "" then
        match e it with
        | EnrichOutcome.ok d =>
          { st with recovered := st.recovered ++ [mkProduct it primary mid pageIdx d],
                    found := st.found ++ [t],
                    missing := st.missing.erase t }
        | EnrichOutcome.raised =>
          { st with failed := st.failed ++ [t],
                    recovered := st.recovered ++ [mkProduct it primary mid pageIdx emptyDetails],
                    found := st.found ++ [t],
                    missing := st.missing.erase t }
      else
        { st with recovered := st.recovered ++ [mkProduct it primary mid pageIdx emptyDetails],
                  found := st.found ++ [t],
                  missing := st.missing.erase t }
    else st
  else st

/-- The recovery walk over the items of one listing page (collect.py line
566): items are processed in order, an exception on one item never stops the
walk. -/
def recoverySteps (fd : Bool) (primary mid : String) (pageIdx : Nat)
    (e : RawItem → EnrichOutcome) (items : List RawItem) (st : RecState) : RecState :=
  items.foldl (recoveryStep fd primary mid pageIdx e) st

/-- Python dict insertion for merge_json_files, modelled as an association
list whose head shadows older entries with the same key. -/
def dictInsert (m : List (Nat × Product)) (k : Nat) (v : Product) : List (Nat × Product) :=
  (k, v) :: m

/-- Python dict lookup: the most recent insertion for the key. -/
def dictLookup (m : List (Nat × Product)) (k : Nat) : Option Product :=
  (m.find? (fun kv => kv.1 == k)).map (fun kv => kv.2)

/-- Key set of the modelled dict, first occurrences kept. -/
def dictKeys (m : List (Nat × Product)) : List Nat :=
  (m.map (fun kv => kv.1)).dedup

/-- Indexing passes of merge_json_files (collect.py lines 679-705): each
product with a non-empty t_number is inserted under its integer t_number,
later insertions replacing earlier ones; products without a t_number are
skipped. -/
def indexByTNumber (m : List (Nat × Product)) (products : List Product) :
    List (Nat × Product) :=
  products.foldl
    (fun m p => if p.t_number ≠ "" then dictInsert m (strToNat p.t_number) p else m) m

/-- Core of merge_json_files (collect.py lines 676-710): index the original
products, overlay the recovered products, then emit the values in ascending
key order. -/
def merge_json_files (original recovered : List Product) : List Product :=
  let m := indexByTNumber (indexByTNumber [] original) recovered
  ((dictKeys m).insertionSort (· ≤ ·)).filterMap (dictLookup m)

/-- Summary with only a t_number, used by concrete crawl scenarios. -/
def ti (s : String) : RawItem :=
  { goodsNo := "", dispCatNo := "", image := "", brand := "", name := "",
    detailUrl := "", t_number := s, price_org := "", price_cur := "" }

/-- Summary with a t_number and a detail URL. -/
def tiu (s : String) : RawItem := { ti s with detailUrl := "u" }

/-- Enrichment oracle that always raises. -/
def eRaise : RawItem → EnrichOutcome := fun _ => EnrichOutcome.raised

/-- Enrichment oracle that always returns all-empty details. -/
def eOkEmpty : RawItem → EnrichOutcome := fun _ => EnrichOutcome.ok emptyDetails

/-- Enrichment oracle that always returns a non-empty volume field. -/
def eOkVol : RawItem → EnrichOutcome := fun _ => EnrichOutcome.ok ⟨"50ml", "", "", "", ""⟩

/-- Fetch oracle of the spec's pagination test: page 1 and page 2 carry three
fresh summaries each, every later page is empty. -/
def fetch33 : Nat → List RawItem :=
  fun i =>
    if i = 1 then [ti "1", ti "2", ti "3"]
    else if i = 2 then [ti "4", ti "5", ti "6"]
    else []

/-- Initial recovery state whose only missing id is 5. -/
def recInit : RecState := ⟨[5], [], [], []⟩

/-- Original-dataset product of the spec's merge test: t_number 7, name A. -/
def prodA : Product := { gapProduct "7" with name := "A" }

/-- Recovered-dataset product of the spec's merge test: t_number 7, name B. -/
def prodB : Product := { gapProduct "7" with name := "B" }

end TemiCrawler

namespace TemiCrawler

/-- C1. Identity resolution precedence in the primary crawl dedup loop: a
non-empty t_number forces the t_ key regardless of every other field; else a
non-empty goods_no forces the g_ key; else the composite fallback built from
the category handle, the page index and the position is used. -/
theorem identity_precedence (it : RawItem) (dispCatNo : String) (pageIdx idx : Nat) :
    (it.t_number ≠ "" → resolveMain it dispCatNo pageIdx idx = "t_" ++ it.t_number) ∧
    (it.t_number = "" → it.goodsNo ≠ "" →
      resolveMain it dispCatNo pageIdx idx = "g_" ++ it.goodsNo) ∧
    (it.t_number = "" → it.goodsNo = "" →
      resolveMain it dispCatNo pageIdx idx =
        "fb_" ++ dispCatNo ++ ":" ++ toString pageIdx ++ ":" ++ toString idx) := by
  refine ⟨fun h1 => by simp [resolveMain, h1],
    fun h1 h2 => by simp [resolveMain, h1, h2],
    fun h1 h2 => by simp [resolveMain, h1, h2]⟩

/-- Witness for C1: evaluated on concrete summaries for all three branches. -/
theorem identity_precedence_witness :
    resolveMain { itemG with t_number := "42" } "d" 1 0 = "t_42" ∧
    resolveMain itemG "d" 1 0 = "g_123" ∧
    resolveMain { itemG with goodsNo := "" } "d" 3 2 = "fb_d:3:2" := by
  refine ⟨?_, ?_, ?_⟩
  · exact (identity_precedence { itemG with t_number := "42" } "d" 1 0).1 (by decide)
  · exact (identity_precedence itemG "d" 1 0).2.1 (by decide) (by decide)
  · exact (identity_precedence { itemG with goodsNo := "" } "d" 3 2).2.2 (by decide) (by decide)

/-- C9 counterexample: for a summary with empty t_number and goodsNo 123, the
dedup loop in main computes g_123 while crawl_one_mid computes the bare
string 123, so the two pipeline variants disagree. -/
theorem variant_key_mismatch_cex :
    resolveMain itemG "d" 1 0 ≠ resolveCrawlOneMid itemG "d" 1 ∧
    resolveMain itemG "d" 1 0 = "g_123" ∧ resolveCrawlOneMid itemG "d" 1 = "123" := by
  refine ⟨?_, ?_, ?_⟩ <;> decide

/-- C9 amended: the two variants agree exactly on summaries with a non-empty
t_number; when t_number is empty and goodsNo is non-empty, main prefixes the
goods number with g_ while crawl_one_mid uses it bare, and when both are
empty main uses the fb_ handle:page:position fallback while crawl_one_mid
uses handle:page:detailUrl. -/
theorem variant_key_agreement_amended (it : RawItem) (dispCatNo : String) (pageIdx idx : Nat) :
    (it.t_number ≠ "" →
      resolveMain it dispCatNo pageIdx idx = resolveCrawlOneMid it dispCatNo pageIdx) ∧
    (it.t_number = "" → it.goodsNo ≠ "" →
      resolveMain it dispCatNo pageIdx idx = "g_" ++ it.goodsNo ∧
      resolveCrawlOneMid it dispCatNo pageIdx = it.goodsNo) ∧
    (it.t_number = "" → it.goodsNo = "" →
      resolveMain it dispCatNo pageIdx idx =
        "fb_" ++ dispCatNo ++ ":" ++ toString pageIdx ++ ":" ++ toString idx ∧
      resolveCrawlOneMid it dispCatNo pageIdx =
        dispCatNo ++ ":" ++ toString pageIdx ++ ":" ++ it.detailUrl) := by
  refine ⟨fun h1 => by simp [resolveMain, resolveCrawlOneMid, h1],
    fun h1 h2 => by simp [resolveMain, resolveCrawlOneMid, h1, h2],
    fun h1 h2 => by simp [resolveMain, resolveCrawlOneMid, h1, h2]⟩

/-- Witness for the amended C9: agreement on a t_numbered summary. -/
theorem variant_key_agreement_amended_witness :
    resolveMain { itemG with t_number := "7" } "d" 2 5 =
      resolveCrawlOneMid { itemG with t_number := "7" } "d" 2 :=
  (variant_key_agreement_amended { itemG with t_number := "7" } "d" 2 5).1 (by decide)

/-- C8. Non-sale price normalization: when the original-price field is empty
after stripping non-digits while the current-price field is not, the
normalized record carries price_original equal to price_current; and the
current price string 12,000원 parses to the integer 12000. -/
theorem price_normalization (price_org_raw price_cur_raw : String)
    (horg : stripNonDigits price_org_raw = "")
    (hcur : stripNonDigits price_cur_raw ≠ "") :
    (normalizePrices price_org_raw price_cur_raw).1 =
      (normalizePrices price_org_raw price_cur_raw).2 ∧
    parse_price "12,000원" = some 12000 := by
  constructor
  · simp [normalizePrices, horg, hcur]
  · decide

/-- Witness for C8 at the concrete summary of the spec test. -/
theorem price_normalization_witness :
    (normalizePrices "" "12,000원").1 = (normalizePrices "" "12,000원").2 ∧
    parse_price "12,000원" = some 12000 :=
  price_normalization "" "12,000원" (by decide) (by decide)

/-- C7. Gap detection correctness: find_missing_t_numbers returns exactly the
integers of 1..expectedMax that are the integer value of no non-empty
t_number in the dataset, in strictly ascending order; it is a pure function
of the dataset. -/
theorem find_missing_contract (products : List Product) (expected_max : Nat) :
    (∀ n, n ∈ find_missing_t_numbers products expected_max ↔
      1 ≤ n ∧ n ≤ expected_max ∧
        ∀ p ∈ products, p.t_number ≠ "" → strToNat p.t_number ≠ n) ∧
    List.Chain' (· < ·) (find_missing_t_numbers products expected_max) := by
  constructor
  · intro n
    simp only [find_missing_t_numbers, List.mem_filter, List.mem_range'_1,
      Bool.not_eq_eq_eq_not, Bool.not_true, List.any_eq_false, Bool.and_eq_true,
      bne_iff_ne, beq_iff_eq, not_and]
    constructor
    · rintro ⟨⟨h1, h2⟩, h3⟩
      exact ⟨h1, by omega, fun p hp hne => h3 p hp hne⟩
    · rintro ⟨h1, h2, h3⟩
      exact ⟨⟨h1, by omega⟩, fun p hp hne => h3 p hp hne⟩
  · exact List.chain'_iff_pairwise.mpr
      ((List.pairwise_lt_range' 1 expected_max).filter _)

/-- Witness for C7: the dataset with t_numbers 1, 2, 4, 5 and expectedMax 5
yields exactly the singleton gap 3. -/
theorem find_missing_contract_witness :
    find_missing_t_numbers gapDataset 5 = [3] ∧
    (3 ∈ find_missing_t_numbers gapDataset 5 ↔
      1 ≤ 3 ∧ 3 ≤ 5 ∧ ∀ p ∈ gapDataset, p.t_number ≠ "" → strToNat p.t_number ≠ 3) := by
  exact ⟨by decide, (find_missing_contract gapDataset 5).1 3⟩

end TemiCrawler

namespace TemiCrawler

/-- C2. Ledger rollback on enrichment failure: when an identity key absent
from both scopes is provisionally admitted and its detail enrichment returns
no non-empty field or raises, the key is removed from both the
category-scoped and the global-scoped seen sets and nothing is appended (the
ledger is exactly reverted), so the same identity key is admitted again on a
subsequent encounter with successful enrichment. -/
theorem rollback_on_enrichment_failure
    (primary mid disp : String) (pageIdx idx : Nat)
    (e1 : RawItem → EnrichOutcome) (st : CrawlState) (it : RawItem)
    (hseen : resolveMain it disp pageIdx idx ∉ st.seen_goods)
    (hglob : resolveMain it disp pageIdx idx ∉ st.global_seen)
    (hurl : it.detailUrl ≠ "")
    (hfail : e1 it = EnrichOutcome.raised ∨
      ∃ d, e1 it = EnrichOutcome.ok d ∧ d.hasAny = false) :
    processInline true primary mid disp pageIdx e1 st idx it = (st, false) ∧
    ∀ e1' d, e1' it = EnrichOutcome.ok d → d.hasAny = true →
      (processInline true primary mid disp pageIdx e1'
        (processInline true primary mid disp pageIdx e1 st idx it).1 idx it).2 = true := by
  have hgid : ¬ (resolveMain it disp pageIdx idx ∈ st.global_seen ∨
      resolveMain it disp pageIdx idx ∈ st.seen_goods) := by
    rintro (h | h)
    · exact hglob h
    · exact hseen h
  have hstate : processInline true primary mid disp pageIdx e1 st idx it = (st, false) := by
    rcases hfail with hr | ⟨d, hok, hany⟩
    · simp [processInline, hgid, hurl, hr,
        Finset.erase_insert hseen, Finset.erase_insert hglob]
    · simp [processInline, hgid, hurl, hok, hany,
        Finset.erase_insert hseen, Finset.erase_insert hglob]
  refine ⟨hstate, ?_⟩
  intro e1' d hok' hany'
  rw [hstate]
  simp [processInline, hgid, hurl, hok', hany']

/-- Witness for C2: a concrete raised enrichment rolls the ledger back to the
initial state and the identity is admitted on the next encounter. -/
theorem rollback_on_enrichment_failure_witness :
    processInline true "p" "m" "d" 1 eRaise initState 0 (tiu "9") = (initState, false) ∧
    (processInline true "p" "m" "d" 1 eOkVol
      (processInline true "p" "m" "d" 1 eRaise initState 0 (tiu "9")).1 0 (tiu "9")).2 = true := by
  obtain ⟨h1, h2⟩ := rollback_on_enrichment_failure "p" "m" "d" 1 0 eRaise initState (tiu "9")
    (by decide) (by decide) (by decide) (Or.inl rfl)
  exact ⟨h1, h2 eOkVol ⟨"50ml", "", "", "", ""⟩ rfl rfl⟩

/-- C3 counterexample: in the recovery walk, an item whose enrichment raises
has its id appended to the stillFailed list, yet the id is nevertheless
removed from the mutable missingIds list and the item is appended to the
recovered list, because the removal lines sit outside the try block
(collect.py lines 610-612). The claim asserts the id is NOT removed. -/
theorem recovery_removes_id_on_exception_cex :
    (recoverySteps true "p" "m" 1 eRaise [tiu "5"] recInit).failed = [5] ∧
    (recoverySteps true "p" "m" 1 eRaise [tiu "5"] recInit).missing = [] ∧
    (recoverySteps true "p" "m" 1 eRaise [tiu "5"] recInit).recovered =
      [mkProduct (tiu "5") "p" "m" 1 emptyDetails] := by
  refine ⟨?_, ?_, ?_⟩ <;> decide

/-- C3 amended: for an item whose enrichment raises, the id is appended to
stillFailed and the walk continues with the next item, but the id IS removed
from the mutable missingIds list and the item, without detail fields, is
still appended to the recovered list; the id therefore reaches the final
stillMissing report only through ids never encountered, not through
enrichment failures. -/
theorem recovery_exception_isolation_amended
    (primary mid : String) (pageIdx : Nat) (e : RawItem → EnrichOutcome)
    (st : RecState) (it : RawItem) (rest : List RawItem)
    (ht : it.t_number ≠ "") (hmem : strToNat it.t_number ∈ st.missing)
    (hurl : it.detailUrl ≠ "") (hr : e it = EnrichOutcome.raised) :
    recoverySteps true primary mid pageIdx e (it :: rest) st =
      recoverySteps true primary mid pageIdx e rest
        { st with failed := st.failed ++ [strToNat it.t_number],
                  recovered := st.recovered ++ [mkProduct it primary mid pageIdx emptyDetails],
                  found := st.found ++ [strToNat it.t_number],
                  missing := st.missing.erase (strToNat it.t_number) } := by
  have hstep : recoveryStep true primary mid pageIdx e st it =
      { st with failed := st.failed ++ [strToNat it.t_number],
                recovered := st.recovered ++ [mkProduct it primary mid pageIdx emptyDetails],
                found := st.found ++ [strToNat it.t_number],
                missing := st.missing.erase (strToNat it.t_number) } := by
    simp [recoveryStep, ht, hmem, hurl, hr]
  simp [recoverySteps, hstep]

/-- Witness for the amended C3, on the concrete one-item walk of the
counterexample followed by one further item, showing the walk continues. -/
theorem recovery_exception_isolation_amended_witness :
    recoverySteps true "p" "m" 1 eRaise [tiu "5", ti "7"] recInit =
      recoverySteps true "p" "m" 1 eRaise [ti "7"]
        { recInit with failed := [5],
                       recovered := [mkProduct (tiu "5") "p" "m" 1 emptyDetails],
                       found := [5], missing := [] } := by
  have h := recovery_exception_isolation_amended "p" "m" 1 eRaise recInit (tiu "5") [ti "7"]
    (by decide) (by decide) (by decide) rfl
  simpa using h

/-- C4 counterexample: with detail fetching enabled, an item whose inline
enrichment returns all-empty details is rolled back, but the end-of-page
retry pass appends it regardless (collect.py lines 999-1005, appending with
the comment that the product is added even without detail info), so the
final accumulation contains a product whose five details fields are all
empty. -/
theorem retry_pass_admits_empty_details_cex :
    (processPage true "p" "m" "d" 1 eOkEmpty eOkEmpty initState [tiu "1"]).1.all_products =
      [mkProduct (tiu "1") "p" "m" 1 emptyDetails] ∧
    ((processPage true "p" "m" "d" 1 eOkEmpty eOkEmpty initState
      [tiu "1"]).1.all_products.any (fun p => p.detailsEmpty)) = true := by
  refine ⟨?_, ?_⟩ <;> decide

/-- C4 amended: in the inline pass of the primary crawl a product with a
detail URL whose enrichment yields no non-empty field or raises is not
appended; but the end-of-page retry pass appends a not-yet-accumulated item
with a detail URL regardless of how empty its re-extracted details are, so
the final accumulation may contain products with all five details fields
empty. -/
theorem enrichment_failed_exclusion_amended
    (primary mid disp : String) (pageIdx idx n : Nat)
    (e1 e2 : RawItem → EnrichOutcome) (st : CrawlState) (it : RawItem) (d : Details) :
    (it.detailUrl ≠ "" →
      (e1 it = EnrichOutcome.raised ∨ (e1 it = EnrichOutcome.ok d ∧ d.hasAny = false)) →
      (processInline true primary mid disp pageIdx e1 st idx it).1.all_products =
        st.all_products) ∧
    (st.all_products.any (fun p =>
        (p.t_number != "" && p.t_number == it.t_number) ||
        (p.goodsNo != "" && p.goodsNo == it.goodsNo)) = false →
      it.detailUrl ≠ "" → e2 it = EnrichOutcome.ok d →
      (processRetryOne true primary mid disp pageIdx e2 (st, n) idx it).1.all_products =
        st.all_products ++ [mkProduct it primary mid pageIdx d]) := by
  constructor
  · intro hurl hfail
    by_cases hgid : resolveMain it disp pageIdx idx ∈ st.global_seen ∨
        resolveMain it disp pageIdx idx ∈ st.seen_goods
    · simp [processInline, hgid]
    · rcases hfail with hr | ⟨hok, hany⟩
      · simp [processInline, hgid, hurl, hr]
      · simp [processInline, hgid, hurl, hok, hany]
  · intro hadded hurl hok
    simp [processRetryOne, hadded, hurl, hok]

/-- Witness for the amended C4 at the counterexample input: the inline pass
appends nothing and the retry pass appends the all-empty-details product. -/
theorem enrichment_failed_exclusion_amended_witness :
    (processInline true "p" "m" "d" 1 eOkEmpty initState 0 (tiu "1")).1.all_products = [] ∧
    (processRetryOne true "p" "m" "d" 1 eOkEmpty (initState, 0) 1 (tiu "1")).1.all_products =
      [mkProduct (tiu "1") "p" "m" 1 emptyDetails] := by
  obtain ⟨h1, h2⟩ := enrichment_failed_exclusion_amended "p" "m" "d" 1 0 0 eOkEmpty eOkEmpty
    initState (tiu "1") emptyDetails
  constructor
  · exact h1 (by decide) (Or.inr ⟨rfl, by decide⟩)
  · have h3 := enrichment_failed_exclusion_amended "p" "m" "d" 1 1 0 eOkEmpty eOkEmpty
      initState (tiu "1") emptyDetails
    exact h3.2 (by decide) (by decide) rfl

end TemiCrawler

namespace TemiCrawler

/-- Helper: one inline admission step keeps the category-scoped seen set
inside the global seen set, since the key is inserted into or erased from
both sets together. -/
theorem processInline_subset (fd : Bool) (primary mid disp : String) (pageIdx idx : Nat)
    (e1 : RawItem → EnrichOutcome) (st : CrawlState) (it : RawItem)
    (h : st.seen_goods ⊆ st.global_seen) :
    (processInline fd primary mid disp pageIdx e1 st idx it).1.seen_goods ⊆
      (processInline fd primary mid disp pageIdx e1 st idx it).1.global_seen := by
  by_cases hgid : resolveMain it disp pageIdx idx ∈ st.global_seen ∨
      resolveMain it disp pageIdx idx ∈ st.seen_goods
  · simpa [processInline, hgid] using h
  · by_cases hfd : (fd : Prop) ∧ it.detailUrl ≠ ""
    · cases he : e1 it with
      | ok d =>
        by_cases hd : d.hasAny
        · simpa [processInline, hgid, hfd, he, hd] using
            Finset.insert_subset_insert _ h
        · simpa [processInline, hgid, hfd, he, hd] using
            Finset.erase_subset_erase _ h
      | raised =>
        simpa [processInline, hgid, hfd, he] using
          Finset.erase_subset_erase _ h
    · simpa [processInline, hgid, hfd] using Finset.insert_subset_insert _ h

/-- Helper: one retry step keeps the category-scoped seen set inside the
global seen set. -/
theorem processRetryOne_subset (fd : Bool) (primary mid disp : String) (pageIdx : Nat)
    (e2 : RawItem → EnrichOutcome) (acc : CrawlState × Nat) (missingIdx : Nat)
    (it : RawItem) (h : acc.1.seen_goods ⊆ acc.1.global_seen) :
    (processRetryOne fd primary mid disp pageIdx e2 acc missingIdx it).1.seen_goods ⊆
      (processRetryOne fd primary mid disp pageIdx e2 acc missingIdx it).1.global_seen := by
  by_cases hadd : acc.1.all_products.any (fun p =>
      (p.t_number != "" && p.t_number == it.t_number) ||
      (p.goodsNo != "" && p.goodsNo == it.goodsNo))
  · simpa [processRetryOne, hadd] using h
  · by_cases hurl : it.detailUrl ≠ ""
    · by_cases hfd : fd = true
      · cases he : e2 it with
        | ok d =>
          simpa [processRetryOne, hadd, hurl, hfd, he] using
            Finset.insert_subset_insert _ h
        | raised => simpa [processRetryOne, hadd, hurl, hfd, he] using h
      · simpa [processRetryOne, hadd, hurl, hfd] using
          Finset.insert_subset_insert _ h
    · simpa [processRetryOne, hadd, hurl] using h

/-- Helper: the inline pass preserves containment of the category scope in
the global scope, for any fold accumulator. -/
theorem runInlineAux_subset (fd : Bool) (primary mid disp : String) (pageIdx : Nat)
    (e1 : RawItem → EnrichOutcome) :
    ∀ (l : List (Nat × RawItem)) (acc : CrawlState × Nat × List Nat),
      acc.1.seen_goods ⊆ acc.1.global_seen →
      (l.foldl
        (fun acc ix =>
          let r := processInline fd primary mid disp pageIdx e1 acc.1 ix.1 ix.2
          if r.2 then (r.1, acc.2.1 + 1, acc.2.2 ++ [ix.1 + 1]) else (r.1, acc.2.1, acc.2.2))
        acc).1.seen_goods ⊆
      (l.foldl
        (fun acc ix =>
          let r := processInline fd primary mid disp pageIdx e1 acc.1 ix.1 ix.2
          if r.2 then (r.1, acc.2.1 + 1, acc.2.2 ++ [ix.1 + 1]) else (r.1, acc.2.1, acc.2.2))
        acc).1.global_seen := by
  intro l
  induction l with
  | nil => exact fun acc h => h
  | cons x xs ih =>
    intro acc h
    simp only [List.foldl_cons]
    have hstep := processInline_subset fd primary mid disp pageIdx x.1 e1 acc.1 x.2 h
    by_cases hr : (processInline fd primary mid disp pageIdx e1 acc.1 x.1 x.2).2
    · simp only [hr, if_true]
      exact ih _ hstep
    · simp only [hr, if_false, Bool.false_eq_true]
      exact ih _ hstep

/-- Helper: the retry pass preserves containment of the category scope in
the global scope, for any fold accumulator. -/
theorem retryAux_subset (fd : Bool) (primary mid disp : String) (pageIdx : Nat)
    (e2 : RawItem → EnrichOutcome) (items : List RawItem) :
    ∀ (l : List Nat) (acc : CrawlState × Nat),
      acc.1.seen_goods ⊆ acc.1.global_seen →
      (l.foldl
        (fun acc mIdx =>
          match items.get? (mIdx - 1) with
          | some it => processRetryOne fd primary mid disp pageIdx e2 acc mIdx it
          | none => acc)
        acc).1.seen_goods ⊆
      (l.foldl
        (fun acc mIdx =>
          match items.get? (mIdx - 1) with
          | some it => processRetryOne fd primary mid disp pageIdx e2 acc mIdx it
          | none => acc)
        acc).1.global_seen := by
  intro l
  induction l with
  | nil => exact fun acc h => h
  | cons x xs ih =>
    intro acc h
    simp only [List.foldl_cons]
    cases hit : items.get? (x - 1) with
    | some it =>
      simp only [hit]
      exact ih _ (processRetryOne_subset fd primary mid disp pageIdx e2 acc x it h)
    | none =>
      simp only [hit]
      exact ih _ h

/-- Helper: processing a whole listing page preserves containment of the
category scope in the global scope. -/
theorem processPage_subset (fd : Bool) (primary mid disp : String) (pageIdx : Nat)
    (e1 e2 : RawItem → EnrichOutcome) (st : CrawlState) (items : List RawItem)
    (h : st.seen_goods ⊆ st.global_seen) :
    (processPage fd primary mid disp pageIdx e1 e2 st items).1.seen_goods ⊆
      (processPage fd primary mid disp pageIdx e1 e2 st items).1.global_seen := by
  unfold processPage runInline
  exact retryAux_subset fd primary mid disp pageIdx e2 items _ _
    (runInlineAux_subset fd primary mid disp pageIdx e1 items.enum (st, 0, []) h)

/-- Helper: the page loop body preserves containment of the category scope
in the global scope, for every fuel. -/
theorem pageLoopGo_subset (fd : Bool) (primary mid disp : String)
    (e1 e2 : RawItem → EnrichOutcome) (fetch : Nat → List RawItem) :
    ∀ (fuel pageIdx : Nat) (st : CrawlState),
      st.seen_goods ⊆ st.global_seen →
      (pageLoopGo fd primary mid disp e1 e2 fetch fuel st pageIdx).state.seen_goods ⊆
        (pageLoopGo fd primary mid disp e1 e2 fetch fuel st pageIdx).state.global_seen := by
  intro fuel
  induction fuel with
  | zero => intro pageIdx st h; simpa [pageLoopGo] using h
  | succ n ih =>
    intro pageIdx st h
    by_cases h0 : (fetch pageIdx).length = 0
    · simpa [pageLoopGo, h0] using h
    · have hpage := processPage_subset fd primary mid disp pageIdx e1 e2 st (fetch pageIdx) h
      by_cases hnc : (processPage fd primary mid disp pageIdx e1 e2 st (fetch pageIdx)).2 = 0
      · simpa [pageLoopGo, h0, hnc] using hpage
      · by_cases h100 : 100 < pageIdx + 1
        · simpa [pageLoopGo, h0, hnc, h100] using hpage
        · have hrec := ih (pageIdx + 1)
            (processPage fd primary mid disp pageIdx e1 e2 st (fetch pageIdx)).1 hpage
          simpa [pageLoopGo, h0, hnc, h100] using hrec

/-- Helper: the page loop preserves containment of the category scope in the
global scope. -/
theorem pageLoop_subset (fd : Bool) (primary mid disp : String)
    (e1 e2 : RawItem → EnrichOutcome) (fetch : Nat → List RawItem)
    (pageIdx : Nat) (st : CrawlState) (h : st.seen_goods ⊆ st.global_seen) :
    (pageLoop fd primary mid disp e1 e2 fetch st pageIdx).state.seen_goods ⊆
      (pageLoop fd primary mid disp e1 e2 fetch st pageIdx).state.global_seen :=
  pageLoopGo_subset fd primary mid disp e1 e2 fetch (101 - pageIdx) pageIdx st h

/-- C10. Ledger scope containment: the inline admission step, the whole-page
processing and the page loop each preserve containment of the
category-scoped seen set in the global seen set (keys are inserted into and
removed from both sets together), and a category crawl, which starts from an
empty category-scoped set, ends with the category scope contained in the
global scope for every starting state. -/
theorem ledger_scope_containment (fd : Bool) (primary mid disp : String)
    (pageIdx idx : Nat) (e1 e2 : RawItem → EnrichOutcome)
    (fetch : Nat → List RawItem) (st : CrawlState) (it : RawItem)
    (items : List RawItem) :
    (st.seen_goods ⊆ st.global_seen →
      (processInline fd primary mid disp pageIdx e1 st idx it).1.seen_goods ⊆
        (processInline fd primary mid disp pageIdx e1 st idx it).1.global_seen) ∧
    (st.seen_goods ⊆ st.global_seen →
      (processPage fd primary mid disp pageIdx e1 e2 st items).1.seen_goods ⊆
        (processPage fd primary mid disp pageIdx e1 e2 st items).1.global_seen) ∧
    (st.seen_goods ⊆ st.global_seen →
      (pageLoop fd primary mid disp e1 e2 fetch st pageIdx).state.seen_goods ⊆
        (pageLoop fd primary mid disp e1 e2 fetch st pageIdx).state.global_seen) ∧
    ((crawlCategory fd primary mid disp e1 e2 fetch st).state.seen_goods ⊆
      (crawlCategory fd primary mid disp e1 e2 fetch st).state.global_seen) := by
  refine ⟨fun h => processInline_subset fd primary mid disp pageIdx idx e1 st it h,
    fun h => processPage_subset fd primary mid disp pageIdx e1 e2 st items h,
    fun h => pageLoop_subset fd primary mid disp e1 e2 fetch pageIdx st h,
    ?_⟩
  exact pageLoop_subset fd primary mid disp e1 e2 fetch 1
    { st with seen_goods := ∅ } (Finset.empty_subset _)

/-- Witness for C10 on a concrete one-page crawl. -/
theorem ledger_scope_containment_witness :
    (processInline true "p" "m" "d" 1 eOkVol initState 0 (tiu "1")).1.seen_goods ⊆
      (processInline true "p" "m" "d" 1 eOkVol initState 0 (tiu "1")).1.global_seen ∧
    (crawlCategory false "p" "m" "d" eRaise eRaise fetch33 initState).state.seen_goods ⊆
      (crawlCategory false "p" "m" "d" eRaise eRaise fetch33 initState).state.global_seen := by
  have h := ledger_scope_containment true "p" "m" "d" 1 0 eOkVol eOkVol fetch33 initState
    (tiu "1") []
  have h2 := ledger_scope_containment false "p" "m" "d" 1 0 eRaise eRaise fetch33 initState
    (tiu "1") []
  exact ⟨h.1 (Finset.empty_subset _), h2.2.2.2⟩

end TemiCrawler

namespace TemiCrawler

/-- Helper: full characterisation of the page loop's fetch log, for any fuel
at least 101 minus the starting index. The fetched page indices are the
consecutive range starting at the first index; every page before the last
was non-empty, contributed new products and had index below 100; and the
last fetched page was empty, or contributed nothing new, or had index 100. -/
theorem pageLoopGo_log_spec (fd : Bool) (primary mid disp : String)
    (e1 e2 : RawItem → EnrichOutcome) (fetch : Nat → List RawItem) :
    ∀ (fuel pageIdx : Nat) (st : CrawlState),
      101 - pageIdx ≤ fuel → 1 ≤ pageIdx → pageIdx ≤ 100 →
      ∀ L, pageLoopGo fd primary mid disp e1 e2 fetch fuel st pageIdx = L →
        L.log.map PageLog.idx = List.range' pageIdx L.log.length ∧
        1 ≤ L.log.length ∧
        pageIdx + L.log.length - 1 ≤ 100 ∧
        (∀ e ∈ L.log.dropLast, e.numItems ≠ 0 ∧ e.newCount ≠ 0 ∧ e.idx < 100) ∧
        (∀ e, L.log.getLast? = some e →
          e.numItems = 0 ∨ e.newCount = 0 ∨ e.idx = 100) := by
  intro fuel
  induction fuel with
  | zero => intro pageIdx st hn h1 h100; omega
  | succ n ih =>
    intro pageIdx st hn h1 h100 L hL
    by_cases h0 : (fetch pageIdx).length = 0
    · have hL' : L = ⟨st, [⟨pageIdx, 0, 0⟩]⟩ := by rw [← hL]; simp [pageLoopGo, h0]
      subst hL'
      refine ⟨by simp, by simp, by simp; omega, by simp, ?_⟩
      intro e he
      simp only [List.getLast?_singleton, Option.some.injEq] at he
      subst he
      exact Or.inl rfl
    · by_cases hnc : (processPage fd primary mid disp pageIdx e1 e2 st (fetch pageIdx)).2 = 0
      · have hL' : L = ⟨(processPage fd primary mid disp pageIdx e1 e2 st (fetch pageIdx)).1,
            [⟨pageIdx, (fetch pageIdx).length, 0⟩]⟩ := by
          rw [← hL]; simp [pageLoopGo, h0, hnc]
        subst hL'
        refine ⟨by simp, by simp, by simp; omega, by simp, ?_⟩
        intro e he
        simp only [List.getLast?_singleton, Option.some.injEq] at he
        subst he
        exact Or.inr (Or.inl rfl)
      · by_cases hc : 100 < pageIdx + 1
        · have hL' : L = ⟨(processPage fd primary mid disp pageIdx e1 e2 st (fetch pageIdx)).1,
              [⟨pageIdx, (fetch pageIdx).length,
                (processPage fd primary mid disp pageIdx e1 e2 st (fetch pageIdx)).2⟩]⟩ := by
            rw [← hL]; simp [pageLoopGo, h0, hnc, hc]
          subst hL'
          refine ⟨by simp, by simp, by simp; omega, by simp, ?_⟩
          intro e he
          simp only [List.getLast?_singleton, Option.some.injEq] at he
          subst he
          exact Or.inr (Or.inr (by simp; omega))
        · obtain ⟨ha, hb, hc2, hd, he⟩ := ih (pageIdx + 1)
            (processPage fd primary mid disp pageIdx e1 e2 st (fetch pageIdx)).1
            (by omega) (by omega) (by omega)
            (pageLoopGo fd primary mid disp e1 e2 fetch n
              (processPage fd primary mid disp pageIdx e1 e2 st (fetch pageIdx)).1
              (pageIdx + 1)) rfl
          have hL' : L = ⟨(pageLoopGo fd primary mid disp e1 e2 fetch n
                (processPage fd primary mid disp pageIdx e1 e2 st (fetch pageIdx)).1
                (pageIdx + 1)).state,
              ⟨pageIdx, (fetch pageIdx).length,
                (processPage fd primary mid disp pageIdx e1 e2 st (fetch pageIdx)).2⟩ ::
              (pageLoopGo fd primary mid disp e1 e2 fetch n
                (processPage fd primary mid disp pageIdx e1 e2 st (fetch pageIdx)).1
                (pageIdx + 1)).log⟩ := by
            rw [← hL]; simp [pageLoopGo, h0, hnc, hc]
          subst hL'
          set rest := pageLoopGo fd primary mid disp e1 e2 fetch n
            (processPage fd primary mid disp pageIdx e1 e2 st (fetch pageIdx)).1
            (pageIdx + 1) with hrest
          obtain ⟨b, t, hbt⟩ : ∃ b t, rest.log = b :: t := by
            cases hcons : rest.log with
            | nil => rw [hcons] at hb; simp at hb
            | cons b t => exact ⟨b, t, rfl⟩
          refine ⟨?_, by simp, ?_, ?_, ?_⟩
          · simp only [List.length_cons, List.map_cons, List.range'_succ, ha]
          · simp only [List.length_cons]
            omega
          · intro e hmem
            rw [hbt] at hmem
            simp only [List.dropLast_cons₂, List.mem_cons] at hmem
            rcases hmem with hme | hme
            · subst hme
              exact ⟨h0, hnc, by show pageIdx < 100; omega⟩
            · exact hd e (by rw [hbt]; simpa using hme)
          · intro e hlast
            rw [hbt] at hlast
            simp only [List.getLast?_cons_cons] at hlast
            exact he e (by rw [hbt]; exact hlast)

/-- C6. Pagination termination: for every category crawl the fetched pages
form the consecutive index range from the start page; every page before the
last was non-empty, contributed new products and had index below 100, and
the loop stops exactly at a page that is empty, or contributes zero new
products, or has index 100 (so no page index ever exceeds 100); in
particular, a category whose page sequence is 3 items, 3 items, 0 items
yields exactly the products of pages 1 and 2 and fetches no 4th page. -/
theorem pagination_termination :
    (∀ (fd : Bool) (primary mid disp : String) (e1 e2 : RawItem → EnrichOutcome)
        (fetch : Nat → List RawItem) (st : CrawlState) (k : Nat) (L : LoopOut),
      1 ≤ k → k ≤ 100 → pageLoop fd primary mid disp e1 e2 fetch st k = L →
      L.log.map PageLog.idx = List.range' k L.log.length ∧
      1 ≤ L.log.length ∧
      k + L.log.length - 1 ≤ 100 ∧
      (∀ e ∈ L.log.dropLast, e.numItems ≠ 0 ∧ e.newCount ≠ 0 ∧ e.idx < 100) ∧
      (∀ e, L.log.getLast? = some e →
        e.numItems = 0 ∨ e.newCount = 0 ∨ e.idx = 100)) ∧
    (pageLoop false "p" "m" "d" eRaise eRaise fetch33 initState 1).log.map PageLog.idx =
      [1, 2, 3] ∧
    (pageLoop false "p" "m" "d" eRaise eRaise fetch33 initState 1).state.all_products.map
      Product.page_idx = [1, 1, 1, 2, 2, 2] := by
  refine ⟨?_, by decide, by decide⟩
  intro fd primary mid disp e1 e2 fetch st k L h1 h100 hL
  exact pageLoopGo_log_spec fd primary mid disp e1 e2 fetch (101 - k) k st
    (Nat.le_refl _) h1 h100 L hL

/-- Witness for C6: the general page-log characterisation applied to the
concrete 3-3-0 category. -/
theorem pagination_termination_witness :
    (pageLoop false "p" "m" "d" eRaise eRaise fetch33 initState 1).log.map PageLog.idx =
      List.range' 1 (pageLoop false "p" "m" "d" eRaise eRaise fetch33 initState 1).log.length ∧
    1 + (pageLoop false "p" "m" "d" eRaise eRaise fetch33 initState 1).log.length - 1 ≤ 100 :=
  have h := pagination_termination.1 false "p" "m" "d" eRaise eRaise fetch33 initState 1
    (pageLoop false "p" "m" "d" eRaise eRaise fetch33 initState 1) (by decide) (by decide) rfl
  ⟨h.1, h.2.2.1⟩

end TemiCrawler

namespace TemiCrawler

/-- Helper: unfolding of one indexing step. -/
theorem indexByTNumber_cons (m : List (Nat × Product)) (p : Product) (ps : List Product) :
    indexByTNumber m (p :: ps) =
      indexByTNumber
        (if p.t_number ≠ "" then dictInsert m (strToNat p.t_number) p else m) ps := rfl

/-- Helper: every entry of the keyed structure stores a product with a
non-empty t_number under that t_number's integer value. -/
theorem indexByTNumber_inv :
    ∀ (l : List Product) (m : List (Nat × Product)),
      (∀ kv ∈ m, kv.2.t_number ≠ "" ∧ strToNat kv.2.t_number = kv.1) →
      ∀ kv ∈ indexByTNumber m l, kv.2.t_number ≠ "" ∧ strToNat kv.2.t_number = kv.1 := by
  intro l
  induction l with
  | nil => intro m hm; simpa [indexByTNumber] using hm
  | cons p ps ih =>
    intro m hm
    rw [indexByTNumber_cons]
    by_cases hp : p.t_number ≠ ""
    · rw [if_pos hp]
      apply ih
      intro kv hkv
      rcases List.mem_cons.mp hkv with hkv | hkv
      · subst hkv; exact ⟨hp, rfl⟩
      · exact hm kv hkv
    · rw [if_neg hp]
      exact ih m hm

/-- Helper: indexing products none of which carries the key leaves that
key's lookup unchanged. -/
theorem indexByTNumber_lookup_of_not_mem :
    ∀ (l : List Product) (m : List (Nat × Product)) (k : Nat),
      (∀ p ∈ l, p.t_number = "" ∨ strToNat p.t_number ≠ k) →
      dictLookup (indexByTNumber m l) k = dictLookup m k := by
  intro l
  induction l with
  | nil => intro m k _; rfl
  | cons p ps ih =>
    intro m k h
    rw [indexByTNumber_cons]
    by_cases hp : p.t_number ≠ ""
    · rw [if_pos hp]
      have hk : strToNat p.t_number ≠ k := by
        rcases h p (List.mem_cons_self p ps) with h1 | h1
        · exact absurd h1 hp
        · exact h1
      rw [ih _ k (fun q hq => h q (List.mem_cons_of_mem p hq))]
      simp [dictLookup, dictInsert, List.find?_cons, beq_iff_eq, hk]
    · rw [if_neg hp]
      exact ih m k (fun q hq => h q (List.mem_cons_of_mem p hq))

/-- Helper: when some product of the indexed list carries the key, the
lookup returns a product of that list carrying the key (the most recently
inserted one). -/
theorem indexByTNumber_lookup_of_mem :
    ∀ (l : List Product) (m : List (Nat × Product)) (k : Nat),
      (∃ p ∈ l, p.t_number ≠ "" ∧ strToNat p.t_number = k) →
      ∃ q ∈ l, q.t_number ≠ "" ∧ strToNat q.t_number = k ∧
        dictLookup (indexByTNumber m l) k = some q := by
  intro l
  induction l with
  | nil => intro m k h; simp at h
  | cons p ps ih =>
    intro m k hex
    by_cases hps : ∃ q ∈ ps, q.t_number ≠ "" ∧ strToNat q.t_number = k
    · obtain ⟨q, hq, h1, h2, h3⟩ := ih
        (if p.t_number ≠ "" then dictInsert m (strToNat p.t_number) p else m) k hps
      exact ⟨q, List.mem_cons_of_mem p hq, h1, h2, by rw [indexByTNumber_cons]; exact h3⟩
    · obtain ⟨p', hp', h1, h2⟩ := hex
      have hpp : p' = p := by
        rcases List.mem_cons.mp hp' with h | h
        · exact h
        · exact absurd ⟨p', h, h1, h2⟩ hps
      subst hpp
      have hnone : ∀ q ∈ ps, q.t_number = "" ∨ strToNat q.t_number ≠ k := by
        intro q hq
        by_cases hqt : q.t_number = ""
        · exact Or.inl hqt
        · exact Or.inr (fun hk => hps ⟨q, hq, hqt, hk⟩)
      refine ⟨p', List.mem_cons_self p' ps, h1, h2, ?_⟩
      rw [indexByTNumber_cons, if_pos h1,
        indexByTNumber_lookup_of_not_mem ps _ k hnone]
      simp [dictLookup, dictInsert, List.find?_cons, h2]

/-- Helper: a key occurs in the keyed structure exactly when it was already
present or some indexed product carries it. -/
theorem indexByTNumber_mem_key :
    ∀ (l : List Product) (m : List (Nat × Product)) (k : Nat),
      ((∃ kv ∈ indexByTNumber m l, kv.1 = k) ↔
        (∃ kv ∈ m, kv.1 = k) ∨ ∃ p ∈ l, p.t_number ≠ "" ∧ strToNat p.t_number = k) := by
  intro l
  induction l with
  | nil => intro m k; simp [indexByTNumber]
  | cons p ps ih =>
    intro m k
    rw [indexByTNumber_cons]
    by_cases hp : p.t_number ≠ ""
    · rw [if_pos hp, ih]
      constructor
      · rintro (⟨kv, hkv, hk⟩ | h)
        · rcases List.mem_cons.mp hkv with hkv | hkv
          · subst hkv
            exact Or.inr ⟨p, List.mem_cons_self p ps, hp, hk⟩
          · exact Or.inl ⟨kv, hkv, hk⟩
        · obtain ⟨q, hq, h1, h2⟩ := h
          exact Or.inr ⟨q, List.mem_cons_of_mem p hq, h1, h2⟩
      · rintro (⟨kv, hkv, hk⟩ | ⟨q, hq, h1, h2⟩)
        · exact Or.inl ⟨kv, List.mem_cons_of_mem _ hkv, hk⟩
        · rcases List.mem_cons.mp hq with hqp | hqps
          · subst hqp
            exact Or.inl ⟨(strToNat q.t_number, q), List.mem_cons_self _ m, h2⟩
          · exact Or.inr ⟨q, hqps, h1, h2⟩
    · rw [if_neg hp, ih]
      push_neg at hp
      constructor
      · rintro (h | ⟨q, hq, h1, h2⟩)
        · exact Or.inl h
        · exact Or.inr ⟨q, List.mem_cons_of_mem p hq, h1, h2⟩
      · rintro (h | ⟨q, hq, h1, h2⟩)
        · exact Or.inl h
        · rcases List.mem_cons.mp hq with hqp | hqps
          · subst hqp; exact absurd hp h1
          · exact Or.inr ⟨q, hqps, h1, h2⟩

/-- Helper: key-list membership of the modelled dict. -/
theorem mem_dictKeys (m : List (Nat × Product)) (k : Nat) :
    k ∈ dictKeys m ↔ ∃ kv ∈ m, kv.1 = k := by
  simp [dictKeys, List.mem_dedup, List.mem_map]

/-- Helper: a successful lookup comes from an entry of the dict. -/
theorem dictLookup_eq_some (m : List (Nat × Product)) (k : Nat) (q : Product)
    (h : dictLookup m k = some q) : ∃ kv ∈ m, kv.1 = k ∧ kv.2 = q := by
  unfold dictLookup at h
  cases hf : m.find? (fun kv => kv.1 == k) with
  | none => rw [hf] at h; simp at h
  | some kv =>
    rw [hf] at h
    simp at h
    exact ⟨kv, List.mem_of_find?_eq_some hf, by simpa using List.find?_some hf, h⟩

/-- Helper: a key present in the dict has a successful lookup. -/
theorem dictLookup_of_mem_key (m : List (Nat × Product)) (k : Nat)
    (h : ∃ kv ∈ m, kv.1 = k) : ∃ q, dictLookup m k = some q := by
  have hsome : (m.find? (fun kv => kv.1 == k)).isSome := by
    rw [List.find?_isSome]
    obtain ⟨kv, hkv, hk⟩ := h
    exact ⟨kv, hkv, by simp [hk]⟩
  cases hf : m.find? (fun kv => kv.1 == k) with
  | none => rw [hf] at hsome; simp at hsome
  | some kv => exact ⟨kv.2, by simp [dictLookup, hf]⟩

/-- Helper: emitting the dict values along a list of keys all present in the
dict yields products whose integer t_numbers are exactly those keys. -/
theorem filterMap_lookup_spec (m : List (Nat × Product))
    (hinv : ∀ kv ∈ m, kv.2.t_number ≠ "" ∧ strToNat kv.2.t_number = kv.1) :
    ∀ keys : List Nat, (∀ k ∈ keys, ∃ kv ∈ m, kv.1 = k) →
      (keys.filterMap (dictLookup m)).map (fun p => strToNat p.t_number) = keys ∧
      ∀ p ∈ keys.filterMap (dictLookup m), p.t_number ≠ "" := by
  intro keys
  induction keys with
  | nil => intro _; simp
  | cons k ks ih =>
    intro h
    obtain ⟨q, hq⟩ := dictLookup_of_mem_key m k (h k (List.mem_cons_self k ks))
    obtain ⟨kv, hkv, hk1, hk2⟩ := dictLookup_eq_some m k q hq
    obtain ⟨hqt, hqk⟩ := hinv kv hkv
    obtain ⟨ihmap, ihne⟩ := ih (fun k' hk' => h k' (List.mem_cons_of_mem k hk'))
    rw [List.filterMap_cons, hq]
    refine ⟨?_, ?_⟩
    · simp only [List.map_cons, ihmap, List.cons.injEq]
      exact ⟨by rw [← hk2, hqk, hk1], trivial⟩
    · intro p hp
      rcases List.mem_cons.mp hp with hpq | hpk
      · subst hpq; rw [← hk2]; exact hqt
      · exact ihne p hpk

/-- C5. Merge reconciler contract: merge_json_files keys the original
dataset then overlays the recovered dataset, so a key carried by some
recovered product is emitted as a recovered product; products lacking a
t_number never reach the output; a key is emitted exactly when some input
product carries it; and the emitted sequence is strictly ascending in
integer t_number regardless of either input's order. -/
theorem merge_reconciler_contract (original recovered : List Product) :
    List.Chain' (· < ·)
      ((merge_json_files original recovered).map (fun p => strToNat p.t_number)) ∧
    (∀ p ∈ merge_json_files original recovered, p.t_number ≠ "") ∧
    (∀ k, (∃ p ∈ merge_json_files original recovered, strToNat p.t_number = k) ↔
      ∃ p ∈ original ++ recovered, p.t_number ≠ "" ∧ strToNat p.t_number = k) ∧
    (∀ k, (∃ p ∈ recovered, p.t_number ≠ "" ∧ strToNat p.t_number = k) →
      ∃ q ∈ recovered, q.t_number ≠ "" ∧ strToNat q.t_number = k ∧
        q ∈ merge_json_files original recovered) := by
  have hinv : ∀ kv ∈ indexByTNumber (indexByTNumber [] original) recovered,
      kv.2.t_number ≠ "" ∧ strToNat kv.2.t_number = kv.1 :=
    indexByTNumber_inv recovered _
      (indexByTNumber_inv original [] (by simp))
  set m := indexByTNumber (indexByTNumber [] original) recovered with hm
  have hkeys : ∀ k, (∃ kv ∈ m, kv.1 = k) ↔
      ∃ p ∈ original ++ recovered, p.t_number ≠ "" ∧ strToNat p.t_number = k := by
    intro k
    rw [hm, indexByTNumber_mem_key recovered _ k, indexByTNumber_mem_key original [] k]
    simp only [List.not_mem_nil, false_and, exists_false, exists_and_left, false_or,
      List.mem_append]
    constructor
    · rintro (⟨p, hp, h1, h2⟩ | ⟨p, hp, h1, h2⟩)
      · exact ⟨p, Or.inl hp, h1, h2⟩
      · exact ⟨p, Or.inr hp, h1, h2⟩
    · rintro ⟨p, hp | hp, h1, h2⟩
      · exact Or.inl ⟨p, hp, h1, h2⟩
      · exact Or.inr ⟨p, hp, h1, h2⟩
  have hout : merge_json_files original recovered =
      ((dictKeys m).insertionSort (· ≤ ·)).filterMap (dictLookup m) := rfl
  have hperm : List.Perm ((dictKeys m).insertionSort (· ≤ ·)) (dictKeys m) :=
    List.perm_insertionSort _ _
  have hsortmem : ∀ k ∈ (dictKeys m).insertionSort (· ≤ ·), ∃ kv ∈ m, kv.1 = k := by
    intro k hk
    exact (mem_dictKeys m k).mp (hperm.mem_iff.mp hk)
  obtain ⟨hmap, hne⟩ := filterMap_lookup_spec m hinv
    ((dictKeys m).insertionSort (· ≤ ·)) hsortmem
  have hnodup : ((dictKeys m).insertionSort (· ≤ ·)).Nodup :=
    hperm.nodup_iff.mpr (List.nodup_dedup _)
  have hsorted : List.Pairwise (· ≤ ·) ((dictKeys m).insertionSort (· ≤ ·)) :=
    List.sorted_insertionSort _ _
  have hlt : List.Pairwise (· < ·) ((dictKeys m).insertionSort (· ≤ ·)) :=
    (hsorted.and hnodup).imp (fun h => lt_of_le_of_ne h.1 h.2)
  refine ⟨?_, ?_, ?_, ?_⟩
  · rw [hout, hmap]
    exact List.chain'_iff_pairwise.mpr hlt
  · intro p hp
    exact hne p (by rw [hout] at hp; exact hp)
  · intro k
    constructor
    · rintro ⟨p, hp, hk⟩
      rw [hout] at hp
      obtain ⟨k', _, hlook⟩ := List.mem_filterMap.mp hp
      obtain ⟨kv, hkv, hk1, hk2⟩ := dictLookup_eq_some m k' p hlook
      obtain ⟨h1, h2⟩ := hinv kv hkv
      exact (hkeys k).mp ⟨kv, hkv, by rw [← hk, ← hk2, h2]⟩
    · intro h
      obtain ⟨kv, hkv, hk⟩ := (hkeys k).mpr h
      have hkmem : k ∈ (dictKeys m).insertionSort (· ≤ ·) :=
        hperm.mem_iff.mpr ((mem_dictKeys m k).mpr ⟨kv, hkv, hk⟩)
      obtain ⟨q, hq⟩ := dictLookup_of_mem_key m k ⟨kv, hkv, hk⟩
      obtain ⟨kv', hkv', hk1', hk2'⟩ := dictLookup_eq_some m k q hq
      obtain ⟨h1', h2'⟩ := hinv kv' hkv'
      refine ⟨q, ?_, by rw [← hk2', h2', hk1']⟩
      rw [hout]
      exact List.mem_filterMap.mpr ⟨k, hkmem, hq⟩
  · intro k h
    obtain ⟨q, hq, h1, h2, hlook⟩ :=
      indexByTNumber_lookup_of_mem recovered (indexByTNumber [] original) k h
    have hqm : dictLookup m k = some q := by rw [hm]; exact hlook
    obtain ⟨kv, hkv, hk1, hk2⟩ := dictLookup_eq_some m k q hqm
    have hkmem : k ∈ (dictKeys m).insertionSort (· ≤ ·) :=
      hperm.mem_iff.mpr ((mem_dictKeys m k).mpr ⟨kv, hkv, hk1⟩)
    refine ⟨q, hq, h1, h2, ?_⟩
    rw [hout]
    exact List.mem_filterMap.mpr ⟨k, hkmem, hqm⟩

/-- Witness for C5 at the spec's merge test: original has t_number 7 named A,
recovered has t_number 7 named B; the merged output is sorted, the recovered
product wins the collision, and the output is exactly that product. -/
theorem merge_reconciler_contract_witness :
    List.Chain' (· < ·)
      ((merge_json_files [prodA] [prodB]).map (fun p => strToNat p.t_number)) ∧
    (∃ q ∈ [prodB], q.t_number ≠ "" ∧ strToNat q.t_number = 7 ∧
      q ∈ merge_json_files [prodA] [prodB]) ∧
    merge_json_files [prodA] [prodB] = [prodB] := by
  have h := merge_reconciler_contract [prodA] [prodB]
  refine ⟨h.1, h.2.2.2 7 ⟨prodB, by decide, by decide, by decide⟩, by decide⟩

end TemiCrawler
